import Mathlib

/-!
# Verification of `TestPerformanceReport.py`

A shallow embedding of the web-performance probe script. The script, per
hostname, resolves DNS, times `test_threads` parallel TCP connects, issues an
HTTP HEAD (redirects followed), and — on a 200 — times `test_threads` parallel
content downloads; worker threads pull hostnames from a queue and write each
finished result dict into the shared `host_perfs` dict.

Modelling conventions:
* Wall-clock durations are rationals (`ℚ`); the environment supplies the
  duration each network operation would measure, or `none` when that operation
  raises (Python exception).
* Python exceptions escaping a call are `Except.error` values of `PyError`.
  An `Except.error` escaping `do_work` models the worker thread dying with an
  uncaught exception (in the script, `q.task_done()` is then never called, so
  `q.join()` blocks forever and the run never completes).
* A sample thread whose body raises simply never appends to the shared list
  (Python prints the traceback and the thread ends); the collected list holds
  the successful durations, in spawn order (the mean is permutation-invariant,
  so fixing spawn order loses nothing).
* The `performance_output` dict is a record of optional fields, one per key
  the script can set.
-/

/-- Exceptions the script can raise, named after their Python counterparts. -/
inductive PyError where
  /-- `socket.gaierror` from `socket.gethostbyname`. -/
  | gaierror
  /-- `statistics.StatisticsError` from `mean([])`. -/
  | statisticsError
  /-- a `requests.exceptions` error from `requests.head` / `requests.get`. -/
  | requestsError
  /-- `requests.exceptions.TooManyRedirects` (more than 30 hops). -/
  | tooManyRedirects
  deriving DecidableEq, Repr

/-- The configuration options the probe reads (`options.user_agent`,
`options.test_threads`). -/
structure Config where
  user_agent : Option String
  test_threads : Nat
  deriving DecidableEq, Repr

/-- An HTTP server model: given a URL and the request headers, answer with a
status code and an optional `Location` target. (`requests` follows a response
only when it is a 3xx redirect carrying a location.) -/
def Server : Type := String → List (String × String) → Nat × Option String

/-- The network environment one `TestPerformance` object runs against:
what every network call of the probe for this host would observe. -/
structure ProbeEnv where
  /-- `socket.gethostbyname`: resolved IP and measured DNS duration, or
  `none` when resolution raises `socket.gaierror`. -/
  dns : Option (String × ℚ)
  /-- outcome of the `i`-th `tcp_time` sample: measured connect duration,
  or `none` when `s.connect` raises. -/
  tcpConnect : Nat → Option ℚ
  /-- whether `requests.head` itself raises at transport level. -/
  headFails : Bool
  /-- the server answering HEAD/GET requests. -/
  server : Server
  /-- whether the `i`-th `requests.get(..., stream=True)` call raises. -/
  contentGetFails : Nat → Bool
  /-- duration of the `i`-th `requests.get` call (connection setup; this
  happens in the probing thread, before the sample's timer starts). -/
  contentConnect : Nat → ℚ
  /-- outcome of reading `response.content` in the `i`-th content thread:
  measured duration, or `none` when the read raises. -/
  contentBody : Nat → Option ℚ

/-- The `performance_output` dict: each key the script can set, as an
optional field. -/
structure PerfOutput where
  dnsTime : Option ℚ := none
  ipOfDomain : Option String := none
  avgTcpTime : Option ℚ := none
  httpResponseCode : Option Nat := none
  numRedirects : Option Nat := none
  avgContentLoadTime : Option ℚ := none
  deriving DecidableEq, Repr

/-- The state of one `TestPerformance` object after `__init__` succeeded. -/
structure TPState where
  hostname : String
  ip_address : String
  performance_output : PerfOutput
  deriving DecidableEq, Repr

/-- `self.c_header`: `{'host': hostname}`, plus `User-agent` when
`options.user_agent` is set. -/
def c_header (hostname : String) (ua : Option String) : List (String × String) :=
  match ua with
  | none => [("host", hostname)]
  | some u => [("host", hostname), ("User-agent", u)]

/-- `ip_to_url = 'http://{}/'.format(self.ip_address)`. -/
def ip_to_url (ip : String) : String := "http://" ++ ip ++ "/"

/-- `statistics.mean`: arithmetic mean, raising `StatisticsError` on an
empty list. -/
def mean (xs : List ℚ) : Except PyError ℚ :=
  match xs with
  | [] => .error .statisticsError
  | _ => .ok (xs.sum / xs.length)

/-- One fan-out round (the loops at `test_all` lines 114-122 and at
`get_http` lines 94-104): spawn `n` sample threads, join them all, and keep
the durations of the samples that did not raise, in spawn order. -/
def fanOutTimes (n : Nat) (sample : Nat → Option ℚ) : List ℚ :=
  (List.range n).filterMap sample

/-- The outcome of every one of the `n` spawned sample threads (the
ephemeral sample set: one entry per invocation, failed or not). -/
def sampleOutcomes (n : Nat) (sample : Nat → Option ℚ) : List (Option ℚ) :=
  (List.range n).map sample

/-- `TestPerformance.__init__`: resolve DNS (unguarded — a `gaierror`
escapes), record `DNS Time` and `IP of Domain`. -/
def TestPerformance.mk (hostname : String) (env : ProbeEnv) :
    Except PyError TPState :=
  match env.dns with
  | none => .error .gaierror
  | some (ip, dnsDur) =>
    .ok { hostname := hostname, ip_address := ip,
          performance_output :=
            { dnsTime := some dnsDur, ipOfDomain := some ip } }

/-- `requests` redirect following with bounded hops: follow `Location` while
the status is a 3xx, consuming fuel per hop; `none` models
`TooManyRedirects`. Returns the history (statuses of the followed redirect
responses) and the final status. -/
def followRedirects (server : Server) (hdrs : List (String × String)) :
    Nat → String → Option (List Nat × Nat)
  | fuel, url =>
    match server url hdrs with
    | (st, none) => some ([], st)
    | (st, some nxt) =>
      if 300 ≤ st ∧ st < 400 then
        match fuel with
        | 0 => none
        | Nat.succ f =>
          match followRedirects server hdrs f nxt with
          | none => none
          | some (hist, fin) => some (st :: hist, fin)
      else some ([], st)

/-- `requests.head(url, headers=..., allow_redirects=True)`: follow up to 30
redirects (the `requests` default), returning `(history, status_code)`. -/
def requests_head (server : Server) (url : String)
    (hdrs : List (String × String)) : Option (List Nat × Nat) :=
  followRedirects server hdrs 30 url

/-- The list `self.content_times` collected by the content threads: the
`time_content` timer wraps only `response.content`, so each successful
sample contributes its body-consumption duration (`contentBody`), not its
connection setup time. -/
def content_times (n : Nat) (env : ProbeEnv) : List ℚ :=
  fanOutTimes n env.contentBody

/-- `TestPerformance.get_http`: HEAD (unguarded) with redirect following,
record `HTTP Response Code` and `Number of Redirects`; on a 200, spawn the
content samples (each `requests.get` unguarded in the probing thread), join
them, and record `mean(self.content_times)` (raising `StatisticsError` when
every sample failed). -/
def TestPerformance.get_http (cfg : Config) (st : TPState) (env : ProbeEnv) :
    Except PyError TPState :=
  if env.headFails then .error .requestsError
  else
    match requests_head env.server (ip_to_url st.ip_address)
        (c_header st.hostname cfg.user_agent) with
    | none => .error .tooManyRedirects
    | some (hist, code) =>
      if code = 200 then
        if (List.range cfg.test_threads).any env.contentGetFails then
          .error .requestsError
        else
          match mean (content_times cfg.test_threads env) with
          | .error e => .error e
          | .ok avg =>
            .ok { st with performance_output :=
                    { st.performance_output with
                        httpResponseCode := some code,
                        numRedirects := some hist.length,
                        avgContentLoadTime := some avg } }
      else
        .ok { st with performance_output :=
                { st.performance_output with
                    httpResponseCode := some code,
                    numRedirects := some hist.length } }

/-- `TestPerformance.test_all`: spawn the TCP samples, join them, record
`mean(self.tcp_times)` (raising `StatisticsError` when every sample
failed), then call `get_http`. -/
def TestPerformance.test_all (cfg : Config) (st : TPState) (env : ProbeEnv) :
    Except PyError TPState :=
  match mean (fanOutTimes cfg.test_threads env.tcpConnect) with
  | .error e => .error e
  | .ok avg =>
    TestPerformance.get_http cfg
      { st with performance_output :=
          { st.performance_output with avgTcpTime := some avg } } env

/-- The full probe for one hostname: `TestPerformance(hostname)` followed by
`test_all()`, returning the finished `performance_output` dict (or the
escaped exception). -/
def probeOutput (cfg : Config) (hostname : String) (env : ProbeEnv) :
    Except PyError PerfOutput :=
  match TestPerformance.mk hostname env with
  | .error e => .error e
  | .ok st =>
    match TestPerformance.test_all cfg st env with
    | .error e => .error e
    | .ok st2 => .ok st2.performance_output

/-- Python-dict assignment `d[k] = v`: replace in place when the key exists
(keeping its original insertion position), append otherwise. -/
def dictSet (k : String) (v : PerfOutput) :
    List (String × PerfOutput) → List (String × PerfOutput)
  | [] => [(k, v)]
  | (k', v') :: rest =>
    if k' = k then (k, v) :: rest else (k', v') :: dictSet k v rest

/-- Python-dict lookup `d[k]`. -/
def dictGet (k : String) : List (String × PerfOutput) → Option PerfOutput
  | [] => none
  | (k', v') :: rest => if k' = k then some v' else dictGet k rest

/-- `do_work(hostname)`: run the probe and store the finished dict under the
hostname key; an exception anywhere leaves `host_perfs` untouched. -/
def do_work (cfg : Config) (hostname : String) (env : ProbeEnv)
    (host_perfs : List (String × PerfOutput)) :
    Except PyError (List (String × PerfOutput)) :=
  match probeOutput cfg hostname env with
  | .error e => .error e
  | .ok out => .ok (dictSet hostname out host_perfs)

/-- A run with no timeout and one worker thread: the worker dequeues
hostnames in order and calls `do_work` on each. Returns the final
`host_perfs`, the chronological list of keys written, and the exception that
escaped `do_work`, if any (the worker thread then dies with the remaining
queue items unprocessed, and since `q.task_done()` was never called for the
failed item, `q.join()` blocks forever: the run never completes). -/
def runOneWorker (cfg : Config) (envOf : String → ProbeEnv) :
    List String → List (String × PerfOutput) →
    List (String × PerfOutput) × List String × Option PyError
  | [], m => (m, [], none)
  | h :: rest, m =>
    match do_work cfg h (envOf h) m with
    | .error e => (m, [], some e)
    | .ok m' =>
      let r := runOneWorker cfg envOf rest m'
      (r.1, h :: r.2.1, r.2.2)

/-- The timeout check at the top of `worker()` (lines 136-143): skipped
entirely when `options.timeout` is 0 (falsy); otherwise the run is fatally
aborted (`os._exit(1)`) when `z_s + options.timeout < time.time()`. -/
def timeoutCheck (timeout : Nat) (z_s now : ℚ) : Bool :=
  if timeout = 0 then false else decide (z_s + (timeout : ℚ) < now)

/-- The `worker()` loop, abstracted over a trace of loop iterations: each
entry is the wall-clock value `time.time()` observed at the top of the loop
together with the item `q.get()` then returns (`none` is the stop
sentinel). Returns the hostnames processed (each via `do_work`) and whether
the fatal timeout abort fired. The clock is consulted only at the top of the
loop, before dequeuing — never inside `do_work`. -/
def worker (timeout : Nat) (z_s : ℚ) :
    List (ℚ × Option String) → List String × Bool
  | [] => ([], false)
  | (now, item) :: rest =>
    if timeoutCheck timeout z_s now then ([], true)
    else
      match item with
      | none => ([], false)
      | some h =>
        let r := worker timeout z_s rest
        (h :: r.1, r.2)

/-! ## Concrete fixtures used by the closed evaluations below -/

/-- A server that answers every request with a plain 200. -/
def plainServer : Server := fun _ _ => (200, none)

/-- An environment in which every network operation succeeds. -/
def goodEnv : ProbeEnv :=
  { dns := some ("93.184.216.34", 1/20)
  , tcpConnect := fun _ => some (3/100)
  , headFails := false
  , server := plainServer
  , contentGetFails := fun _ => false
  , contentConnect := fun _ => 1/100
  , contentBody := fun _ => some (1/4) }

/-- `timeoutCheck` with a zero timeout is skipped (Python `if options.timeout:`
on the falsy default 0). -/
theorem timeoutCheck_zero (z_s now : ℚ) : timeoutCheck 0 z_s now = false := rfl

/-- C1: the claim is wrong about the code. A hostname whose DNS resolution
fails makes `socket.gethostbyname` raise `gaierror` inside
`TestPerformance.__init__`; nothing was guarded, so the exception escapes
`do_work`, the worker thread dies, no result (not even the DNS failure) is
recorded for that host, and with one worker the following hostname is never
processed (`q.task_done()` is never called, so `q.join()` blocks and the run
never completes). Evaluated here at a two-host run whose first host fails
DNS: the run ends with the escaped `gaierror`, an empty result map, and an
empty write log. -/
theorem dns_failure_escapes_and_kills_run :
    runOneWorker { user_agent := none, test_threads := 1 }
      (fun h => if h = "bad.invalid" then { goodEnv with dns := none } else goodEnv)
      ["bad.invalid", "good.example"] []
      = ([], [], some PyError.gaierror) := by decide

/-- C2: the claim's "the probe does not crash" clause is wrong about the
code. With a 200 status and every content sample failing (each
`response.content` read raises in its thread), `self.content_times` stays
empty and `mean(self.content_times)` at line 104 raises
`statistics.StatisticsError`, which escapes `do_work` and kills the worker
thread — the field is indeed absent, but only because the probe crashed and
stored nothing at all. Evaluated at a 200 host with 2 content samples, both
failing. -/
theorem all_content_samples_fail_crashes_probe :
    do_work { user_agent := none, test_threads := 2 } "h2.example"
      { goodEnv with contentBody := fun _ => none } []
      = .error PyError.statisticsError := by rfl

/-- C3: the claim's "the probe continues to the HTTP step" clause is wrong
about the code. With every TCP sample failing, `self.tcp_times` stays empty
and `mean(self.tcp_times)` at line 122 raises `statistics.StatisticsError`
before `get_http` is called. The environment here has `headFails := true`:
had the probe reached the HTTP step it would have ended with
`requestsError`; it ends with `statisticsError` instead, so the HTTP step
was never attempted. -/
theorem all_tcp_samples_fail_crashes_probe :
    do_work { user_agent := none, test_threads := 2 } "refused.example"
      { goodEnv with tcpConnect := fun _ => none, headFails := true } []
      = .error PyError.statisticsError := by rfl

/-- C9: the claim is wrong about the code. `main()` performs no validation
of `options.test_threads` at all; with `-T 0` the run starts, each probe
builds an empty `tcp_times` list (the fan-out spawns `range(0)` samples),
and `mean([])` raises `statistics.StatisticsError` at fan-out/reduction time
inside the probe — the error surfaces (by killing the worker) during the
run, not before it starts. Evaluated at a fully healthy host with
`test_threads = 0`. -/
theorem zero_sample_count_crashes_at_fanout :
    do_work { user_agent := none, test_threads := 0 } "ok.example" goodEnv []
      = .error PyError.statisticsError := by rfl

/-- C6: confirmed. (a) With `options.timeout = 0` the check is skipped
(Python falsy), so the fatal abort can never fire, whatever the trace of
clock observations. (b) The check compares `z_s + timeout < now`, i.e. it
depends only on the elapsed time `now - z_s` since run start. (c) The abort
fires only if some clock value observed at the top of the worker loop —
between hostnames, before dequeuing — violates the deadline. (d) Once the
check at a host's loop top has passed, that host is processed to completion
no matter what the clock does afterwards: the timeout is never enforced
mid-probe. -/
theorem worker_timeout_model (t : Nat) (z_s d now : ℚ) (h : String)
    (tr rest : List (ℚ × Option String)) :
    (worker 0 z_s tr).2 = false
    ∧ timeoutCheck t z_s (z_s + d) = timeoutCheck t 0 d
    ∧ ((worker t z_s tr).2 = true → ∃ p ∈ tr, timeoutCheck t z_s p.1 = true)
    ∧ (timeoutCheck t z_s now = false →
        h ∈ (worker t z_s ((now, some h) :: rest)).1) := by
  refine ⟨?_, ?_, ?_, ?_⟩
  · induction tr with
    | nil => rfl
    | cons p rest' ih =>
      obtain ⟨now', item⟩ := p
      simp only [worker, timeoutCheck_zero, if_neg Bool.false_ne_true]
      cases item with
      | none => rfl
      | some h' => simpa using ih
  · by_cases ht : t = 0
    · simp [timeoutCheck, ht]
    · simp only [timeoutCheck, if_neg ht]
      exact decide_eq_decide.mpr (by rw [zero_add]; exact add_lt_add_iff_left z_s)
  · induction tr with
    | nil => intro hfalse; cases hfalse
    | cons p rest' ih =>
      obtain ⟨now', item⟩ := p
      by_cases hc : timeoutCheck t z_s now' = true
      · intro _; exact ⟨(now', item), List.mem_cons_self _ _, hc⟩
      · simp only [worker, hc, if_neg Bool.false_ne_true]
        cases item with
        | none => intro hfalse; cases hfalse
        | some h' =>
          intro habort
          obtain ⟨p', hp', hcp'⟩ := ih (by simpa using habort)
          exact ⟨p', List.mem_cons_of_mem _ hp', hcp'⟩
  · intro hc
    simp [worker, hc]

/-- Closed instance of `worker_timeout_model` at a concrete trace. -/
theorem worker_timeout_model_witness :
    (worker 0 0 [((5 : ℚ), some "a")]).2 = false
    ∧ timeoutCheck 3 0 ((0 : ℚ) + 7) = timeoutCheck 3 0 7
    ∧ ((worker 3 0 [((5 : ℚ), some "a")]).2 = true →
        ∃ p ∈ [((5 : ℚ), some "a")], timeoutCheck 3 0 p.1 = true)
    ∧ (timeoutCheck 3 0 (1 : ℚ) = false →
        "a" ∈ (worker 3 0 (((1 : ℚ), some "a") :: [])).1) :=
  worker_timeout_model 3 0 7 1 "a" [((5 : ℚ), some "a")] []

/-- The fixed sample operation used by the fan-out witness: sample 0
succeeds in 3 seconds, sample 1 fails. -/
def sampleW : Nat → Option ℚ := fun i => if i = 0 then some 3 else none

/-- C4: confirmed. A fan-out round over `n = test_threads` samples spawns
exactly `n` sample threads (the ephemeral sample set has one outcome per
invocation); every sample that completes contributes its duration to the
collected list regardless of how many other samples fail (all threads are
joined before reducing — no early abort); only successful durations are
collected; and the reduction applied to the collected list is
`statistics.mean`, the arithmetic mean (sum divided by count) of the
successful durations only. -/
theorem fanout_issues_n_and_reduces_mean (n : Nat) (sample : Nat → Option ℚ)
    (hn : 1 ≤ n) :
    (sampleOutcomes n sample).length = n
    ∧ (∀ i d, i < n → sample i = some d → d ∈ fanOutTimes n sample)
    ∧ (∀ d, d ∈ fanOutTimes n sample → ∃ i, i < n ∧ sample i = some d)
    ∧ (fanOutTimes n sample ≠ [] →
        mean (fanOutTimes n sample)
          = .ok ((fanOutTimes n sample).sum / (fanOutTimes n sample).length)) := by
  refine ⟨by simp [sampleOutcomes], ?_, ?_, ?_⟩
  · intro i d hi hd
    exact List.mem_filterMap.mpr ⟨i, List.mem_range.mpr hi, hd⟩
  · intro d hd
    obtain ⟨i, hi, hdi⟩ := List.mem_filterMap.mp hd
    exact ⟨i, List.mem_range.mp hi, hdi⟩
  · intro hne
    cases hxs : fanOutTimes n sample with
    | nil => exact absurd hxs hne
    | cons a l => rfl

/-- Closed instance of `fanout_issues_n_and_reduces_mean` at `n = 2` with
one succeeding and one failing sample. -/
theorem fanout_issues_n_and_reduces_mean_witness :
    (sampleOutcomes 2 sampleW).length = 2
    ∧ (∀ i d, i < 2 → sampleW i = some d → d ∈ fanOutTimes 2 sampleW)
    ∧ (∀ d, d ∈ fanOutTimes 2 sampleW → ∃ i, i < 2 ∧ sampleW i = some d)
    ∧ (fanOutTimes 2 sampleW ≠ [] →
        mean (fanOutTimes 2 sampleW)
          = .ok ((fanOutTimes 2 sampleW).sum / (fanOutTimes 2 sampleW).length)) :=
  fanout_issues_n_and_reduces_mean 2 sampleW (by decide)

/-- C5 counterexample: with the duplicate input `["a.example", "a.example"]`
(two input hostnames) and every probe succeeding, the key `a.example` is
written twice (`host_perfs[hostname] = ...` runs once per occurrence, the
second write overwriting the first) and the final map has one entry, not
one per input hostname. -/
theorem duplicate_hostname_double_write :
    (runOneWorker { user_agent := none, test_threads := 1 }
        (fun _ => goodEnv) ["a.example", "a.example"] []).2.1.count "a.example" = 2
    ∧ ((runOneWorker { user_agent := none, test_threads := 1 }
        (fun _ => goodEnv) ["a.example", "a.example"] []).1.map Prod.fst).length = 1 := by
  decide

/-- Key-set insertion with Python-dict semantics: a repeated key keeps its
first-insertion position, a fresh key is appended. -/
def insertKey (ks : List String) (k : String) : List String :=
  if k ∈ ks then ks else ks ++ [k]

theorem dictSet_keys (k : String) (v : PerfOutput) :
    ∀ m : List (String × PerfOutput),
      (dictSet k v m).map Prod.fst = insertKey (m.map Prod.fst) k
  | [] => by simp [dictSet, insertKey]
  | (k', v') :: rest => by
    by_cases hk : k' = k
    · subst hk; simp [dictSet, insertKey]
    · simp only [dictSet, if_neg hk, List.map_cons, dictSet_keys k v rest,
        insertKey, List.mem_cons, Ne.symm hk, false_or]
      by_cases hmem : k ∈ rest.map Prod.fst
      · simp [hmem]
      · simp [hmem]

theorem mem_insertKey (ks : List String) (k a : String) :
    a ∈ insertKey ks k ↔ a ∈ ks ∨ a = k := by
  unfold insertKey
  by_cases hm : k ∈ ks
  · simp only [if_pos hm]
    exact ⟨Or.inl, fun h => h.elim id (fun ha => ha ▸ hm)⟩
  · simp [if_neg hm]

theorem insertKey_nodup (ks : List String) (k : String) (h : ks.Nodup) :
    (insertKey ks k).Nodup := by
  unfold insertKey
  by_cases hm : k ∈ ks
  · simpa [hm]
  · simp [hm, List.nodup_append, h, List.disjoint_singleton]

theorem foldl_insertKey_nodup :
    ∀ (hosts ks : List String), ks.Nodup → (hosts.foldl insertKey ks).Nodup
  | [], _, h => h
  | h :: rest, ks, hnd => foldl_insertKey_nodup rest _ (insertKey_nodup ks h hnd)

theorem mem_foldl_insertKey :
    ∀ (hosts ks : List String) (a : String),
      a ∈ hosts.foldl insertKey ks ↔ a ∈ ks ∨ a ∈ hosts
  | [], ks, a => by simp
  | h :: rest, ks, a => by
    rw [List.foldl_cons, mem_foldl_insertKey rest _ a, mem_insertKey]
    simp only [List.mem_cons]
    tauto

/-- A successful run, starting from any map: no exception escapes, each
occurrence of a hostname performs one write, and the final key list extends
the starting one by first-occurrence insertion. -/
theorem runOneWorker_ok (cfg : Config) (envOf : String → ProbeEnv) :
    ∀ (hosts : List String) (m : List (String × PerfOutput)),
      (∀ h ∈ hosts, ∃ out, probeOutput cfg h (envOf h) = .ok out) →
      (runOneWorker cfg envOf hosts m).2.2 = none
      ∧ (runOneWorker cfg envOf hosts m).2.1 = hosts
      ∧ (runOneWorker cfg envOf hosts m).1.map Prod.fst
          = hosts.foldl insertKey (m.map Prod.fst)
  | [], _, _ => ⟨rfl, rfl, rfl⟩
  | h :: rest, m, hok => by
    obtain ⟨out, hout⟩ := hok h (List.mem_cons_self _ _)
    have ih := runOneWorker_ok cfg envOf rest (dictSet h out m)
      (fun h' hh' => hok h' (List.mem_cons_of_mem _ hh'))
    simp only [runOneWorker, do_work, hout]
    refine ⟨ih.1, ?_, ?_⟩
    · simp [ih.2.1]
    · rw [List.foldl_cons, ← dictSet_keys h out m]
      exact ih.2.2

/-- C5 amended: after a run with no timeout in which every probe succeeds,
the result map contains exactly one entry per DISTINCT input hostname (keys
in first-insertion order); each occurrence of a hostname is processed
independently and performs one write to its key, so a hostname appearing
`m` times in the input has its key written `m` times, later writes
overwriting earlier ones (last write wins). -/
theorem run_one_entry_per_distinct_host (cfg : Config)
    (envOf : String → ProbeEnv) (hosts : List String)
    (hok : ∀ h ∈ hosts, ∃ out, probeOutput cfg h (envOf h) = .ok out) :
    (runOneWorker cfg envOf hosts []).2.2 = none
    ∧ (runOneWorker cfg envOf hosts []).2.1 = hosts
    ∧ (runOneWorker cfg envOf hosts []).1.map Prod.fst = hosts.foldl insertKey []
    ∧ ∀ k, ((runOneWorker cfg envOf hosts []).1.map Prod.fst).count k
        = if k ∈ hosts then 1 else 0 := by
  obtain ⟨h1, h2, h3⟩ := runOneWorker_ok cfg envOf hosts [] hok
  refine ⟨h1, h2, h3, ?_⟩
  intro k
  rw [h3]
  have hnd : (hosts.foldl insertKey []).Nodup :=
    foldl_insertKey_nodup hosts [] List.nodup_nil
  have hmem : k ∈ hosts.foldl insertKey [] ↔ k ∈ hosts := by
    rw [mem_foldl_insertKey]; simp
  by_cases hk : k ∈ hosts
  · rw [if_pos hk]
    exact List.count_eq_one_of_mem hnd (hmem.mpr hk)
  · rw [if_neg hk]
    exact List.count_eq_zero.mpr (fun hin => hk (hmem.mp hin))

/-- Closed instance of `run_one_entry_per_distinct_host` on the input
`["a.example", "b.example", "a.example"]` with every probe succeeding. -/
theorem run_one_entry_per_distinct_host_witness :
    (runOneWorker { user_agent := none, test_threads := 1 } (fun _ => goodEnv)
        ["a.example", "b.example", "a.example"] []).2.2 = none
    ∧ (runOneWorker { user_agent := none, test_threads := 1 } (fun _ => goodEnv)
        ["a.example", "b.example", "a.example"] []).2.1
        = ["a.example", "b.example", "a.example"]
    ∧ (runOneWorker { user_agent := none, test_threads := 1 } (fun _ => goodEnv)
        ["a.example", "b.example", "a.example"] []).1.map Prod.fst
        = (["a.example", "b.example", "a.example"] : List String).foldl insertKey []
    ∧ ∀ k, ((runOneWorker { user_agent := none, test_threads := 1 } (fun _ => goodEnv)
        ["a.example", "b.example", "a.example"] []).1.map Prod.fst).count k
        = if k ∈ (["a.example", "b.example", "a.example"] : List String) then 1 else 0 :=
  run_one_entry_per_distinct_host { user_agent := none, test_threads := 1 }
    (fun _ => goodEnv) ["a.example", "b.example", "a.example"]
    (fun _ _ => ⟨_, rfl⟩)

/-- `mean` on a non-empty list is the sum divided by the length. -/
theorem mean_ne_nil (xs : List ℚ) (h : xs ≠ []) :
    mean xs = .ok (xs.sum / xs.length) := by
  cases xs with
  | nil => exact absurd rfl h
  | cons a l => rfl

/-- `redirectChainB server hdrs url hops final` holds when, querying `server`
with the headers `hdrs`, `url` starts a redirect chain whose hops are the
`(status, location)` pairs in `hops` (each a 3xx with a location) and whose
last location answers `final` with no further redirect. -/
def redirectChainB (server : Server) (hdrs : List (String × String)) :
    String → List (Nat × String) → Nat → Bool
  | url, [], final => decide (server url hdrs = (final, none))
  | url, (st, nxt) :: rest, final =>
    decide (server url hdrs = (st, some nxt)) && decide (300 ≤ st)
      && decide (st < 400) && redirectChainB server hdrs nxt rest final

/-- Following a redirect chain of at most `fuel` hops records every hop's
status in the history and ends on the final status. -/
theorem followRedirects_of_chain (server : Server) (hdrs : List (String × String)) :
    ∀ (hops : List (Nat × String)) (url : String) (fuel : Nat) (final : Nat),
      redirectChainB server hdrs url hops final = true →
      hops.length ≤ fuel →
      followRedirects server hdrs fuel url = some (hops.map Prod.fst, final)
  | [], url, fuel, final, hchain, _ => by
    have hs : server url hdrs = (final, none) := by
      simpa [redirectChainB] using hchain
    simp [followRedirects, hs]
  | (st, nxt) :: rest, url, fuel, final, hchain, hlen => by
    simp only [redirectChainB, Bool.and_eq_true, decide_eq_true_eq] at hchain
    obtain ⟨⟨⟨hs, h300⟩, h400⟩, hrest⟩ := hchain
    cases fuel with
    | zero => simp at hlen
    | succ f =>
      simp only [List.length_cons] at hlen
      have ih := followRedirects_of_chain server hdrs rest nxt f final hrest
        (Nat.le_of_succ_le_succ hlen)
      simp [followRedirects, hs, h300, h400, ih]

/-- C7: confirmed. When the probe reaches the HTTP step it queries
`http://<resolvedIP>/` with the `c_header` dict — which always carries
`host = <original hostname>` and, when configured, the custom `User-agent`
— follows the server's redirect chain automatically, and records the
chain's final status as `HTTP Response Code` and the number of followed
hops (`len(host_head.history)`) as `Number of Redirects`; a chain of 3
redirects ending in 200 thus records 3 and 200. -/
theorem head_follows_redirects_with_host_header (cfg : Config) (st : TPState)
    (env : ProbeEnv) (hops : List (Nat × String)) (final : Nat)
    (hchain : redirectChainB env.server (c_header st.hostname cfg.user_agent)
        (ip_to_url st.ip_address) hops final = true)
    (hlen : hops.length ≤ 30)
    (hhead : env.headFails = false)
    (hcontent : final = 200 →
      (List.range cfg.test_threads).any env.contentGetFails = false
      ∧ content_times cfg.test_threads env ≠ []) :
    (∃ st2, TestPerformance.get_http cfg st env = .ok st2
      ∧ st2.performance_output.httpResponseCode = some final
      ∧ st2.performance_output.numRedirects = some hops.length)
    ∧ ("host", st.hostname) ∈ c_header st.hostname cfg.user_agent
    ∧ (∀ u, cfg.user_agent = some u →
        ("User-agent", u) ∈ c_header st.hostname cfg.user_agent)
    ∧ ip_to_url st.ip_address = "http://" ++ st.ip_address ++ "/" := by
  have hfollow : requests_head env.server (ip_to_url st.ip_address)
      (c_header st.hostname cfg.user_agent) = some (hops.map Prod.fst, final) :=
    followRedirects_of_chain env.server _ hops _ 30 final hchain hlen
  refine ⟨?_, ?_, ?_, rfl⟩
  · unfold TestPerformance.get_http
    rw [hhead, hfollow]
    by_cases h200 : final = 200
    · obtain ⟨hget, hne⟩ := hcontent h200
      subst h200
      rw [if_neg (by simp)]
      simp only [if_pos rfl, hget, Bool.false_eq_true, if_false,
        mean_ne_nil _ hne]
      exact ⟨_, rfl, rfl, by simp⟩
    · rw [if_neg (by simp)]
      simp only [if_neg h200]
      exact ⟨_, rfl, rfl, by simp⟩
  · cases hu : cfg.user_agent <;> simp [c_header]
  · intro u hu
    simp [c_header, hu]

/-- A server chaining 3 redirects from the probed URL to a final 200. -/
def chainServer : Server := fun url _ =>
  if url = "http://9.9.9.9/" then (301, some "http://9.9.9.9/a")
  else if url = "http://9.9.9.9/a" then (302, some "http://9.9.9.9/b")
  else if url = "http://9.9.9.9/b" then (303, some "http://9.9.9.9/c")
  else (200, none)

/-- The environment whose server is `chainServer`. -/
def envC7 : ProbeEnv := { goodEnv with server := chainServer }

/-- Probe state for the host behind `chainServer`. -/
def stC7 : TPState :=
  { hostname := "w.example", ip_address := "9.9.9.9",
    performance_output := { dnsTime := some (1/20), ipOfDomain := some "9.9.9.9" } }

/-- The 3 hops `chainServer` serves. -/
def hopsC7 : List (Nat × String) :=
  [(301, "http://9.9.9.9/a"), (302, "http://9.9.9.9/b"), (303, "http://9.9.9.9/c")]

/-- Closed instance of `head_follows_redirects_with_host_header` at the
3-redirect chain ending in 200, with a custom user agent configured. -/
theorem head_follows_redirects_witness :
    (∃ st2, TestPerformance.get_http { user_agent := some "agent-x", test_threads := 1 }
        stC7 envC7 = .ok st2
      ∧ st2.performance_output.httpResponseCode = some 200
      ∧ st2.performance_output.numRedirects = some hopsC7.length)
    ∧ ("host", stC7.hostname)
        ∈ c_header stC7.hostname (Config.user_agent { user_agent := some "agent-x", test_threads := 1 })
    ∧ (∀ u, Config.user_agent { user_agent := some "agent-x", test_threads := 1 } = some u →
        ("User-agent", u)
          ∈ c_header stC7.hostname (Config.user_agent { user_agent := some "agent-x", test_threads := 1 }))
    ∧ ip_to_url stC7.ip_address = "http://" ++ stC7.ip_address ++ "/" :=
  head_follows_redirects_with_host_header
    { user_agent := some "agent-x", test_threads := 1 } stC7 envC7 hopsC7 200
    (by decide) (by decide) rfl
    (fun _ => ⟨rfl, by decide⟩)

/-- Definition following the claim's words, for comparison with the code's
`content_times`: the claim says the timed region of each content sample
covers starting its own streaming GET connection and consuming the body, so
a successful sample would measure connection setup plus body consumption. -/
def claimedContentTimes (n : Nat) (env : ProbeEnv) : List ℚ :=
  (List.range n).filterMap
    (fun i => (env.contentBody i).map (fun b => env.contentConnect i + b))

/-- Environment whose content sample takes 1s of connection setup
(`requests.get`) and 2s of body consumption (`response.content`). -/
def envC8 : ProbeEnv :=
  { goodEnv with contentConnect := fun _ => 1, contentBody := fun _ => some 2 }

/-- `envC8` with a different connection-setup duration but the same body
durations. -/
def envC8b : ProbeEnv := { envC8 with contentConnect := fun _ => 5 }

/-- C8 counterexample: in the code, `requests.get` is issued by the probing
thread at line 97 BEFORE `time_content`'s timer starts, so the measured
duration of a sample is only the `response.content` consumption: with 1s of
connection setup and 2s of body consumption the code records 2, while the
claim's timed region (start the GET and consume the body) would record 3. -/
theorem content_timer_excludes_connect :
    content_times 1 envC8 = [2]
    ∧ claimedContentTimes 1 envC8 = [3]
    ∧ content_times 1 envC8 ≠ claimedContentTimes 1 envC8 := by
  have h1 : content_times 1 envC8 = [2] := rfl
  have h2 : claimedContentTimes 1 envC8 = [3] := by
    have e : claimedContentTimes 1 envC8 = [(1 : ℚ) + 2] := rfl
    rw [e]
    norm_num
  refine ⟨h1, h2, ?_⟩
  rw [h1, h2]
  intro hc
  have h23 : (2 : ℚ) = 3 := (List.cons.injEq 2 [] 3 []).mp hc |>.1
  norm_num at h23

/-- C8 amended: when the status is 200, each of the `test_threads` content
samples consumes the body of its own independent streaming GET (sample `i`
uses connection `i`), and body consumption runs in parallel across samples;
but each GET is initiated sequentially by the probing thread before the
sample's timer starts, so the timed region covers only consuming the body:
the collected times are unchanged under any change of the connection-setup
durations. -/
theorem content_times_ignore_connect_setup (n : Nat) (e1 e2 : ProbeEnv)
    (h : ∀ i, e1.contentBody i = e2.contentBody i) :
    content_times n e1 = content_times n e2
    ∧ (∀ i d, i < n → e1.contentBody i = some d → d ∈ content_times n e1) := by
  constructor
  · have he : e1.contentBody = e2.contentBody := funext h
    simp only [content_times, fanOutTimes, he]
  · intro i d hi hd
    exact List.mem_filterMap.mpr ⟨i, List.mem_range.mpr hi, hd⟩

/-- Closed instance of `content_times_ignore_connect_setup`: `envC8` and
`envC8b` differ only in connection-setup time and collect the same sample
times. -/
theorem content_times_ignore_connect_setup_witness :
    content_times 1 envC8 = content_times 1 envC8b
    ∧ (∀ i d, i < 1 → envC8.contentBody i = some d → d ∈ content_times 1 envC8) :=
  content_times_ignore_connect_setup 1 envC8 envC8b (fun _ => rfl)

/-- A result record holding every field the probe always sets: DNS time,
resolved IP, average TCP time, HTTP status code and redirect count. -/
def completeRecord (rec : PerfOutput) : Prop :=
  rec.dnsTime.isSome = true ∧ rec.ipOfDomain.isSome = true
  ∧ rec.avgTcpTime.isSome = true ∧ rec.httpResponseCode.isSome = true
  ∧ rec.numRedirects.isSome = true

/-- When `get_http` returns normally it has set the status code and redirect
count and left the earlier fields unchanged. -/
theorem get_http_fields (cfg : Config) (st : TPState) (env : ProbeEnv)
    (st2 : TPState) (h : TestPerformance.get_http cfg st env = .ok st2) :
    st2.performance_output.httpResponseCode.isSome = true
    ∧ st2.performance_output.numRedirects.isSome = true
    ∧ st2.performance_output.dnsTime = st.performance_output.dnsTime
    ∧ st2.performance_output.ipOfDomain = st.performance_output.ipOfDomain
    ∧ st2.performance_output.avgTcpTime = st.performance_output.avgTcpTime := by
  unfold TestPerformance.get_http at h
  split at h
  · cases h
  · split at h
    · cases h
    · split at h
      · split at h
        · cases h
        · split at h
          · cases h
          · cases h
            simp
      · cases h
        simp

/-- When `test_all` returns normally it has set the TCP average, the status
code and the redirect count, and left the `__init__` fields unchanged. -/
theorem test_all_fields (cfg : Config) (st : TPState) (env : ProbeEnv)
    (st2 : TPState) (h : TestPerformance.test_all cfg st env = .ok st2) :
    st2.performance_output.avgTcpTime.isSome = true
    ∧ st2.performance_output.httpResponseCode.isSome = true
    ∧ st2.performance_output.numRedirects.isSome = true
    ∧ st2.performance_output.dnsTime = st.performance_output.dnsTime
    ∧ st2.performance_output.ipOfDomain = st.performance_output.ipOfDomain := by
  unfold TestPerformance.test_all at h
  split at h
  · cases h
  next avg hm =>
    have hf := get_http_fields cfg _ env st2 h
    obtain ⟨hcode, hred, hdns, hip, htcp⟩ := hf
    refine ⟨?_, hcode, hred, ?_, ?_⟩
    · rw [htcp]; rfl
    · rw [hdns]
    · rw [hip]

/-- A probe that returns normally produces a complete record. -/
theorem probeOutput_complete (cfg : Config) (hostname : String)
    (env : ProbeEnv) (out : PerfOutput)
    (h : probeOutput cfg hostname env = .ok out) : completeRecord out := by
  unfold probeOutput at h
  split at h
  · cases h
  next st hst =>
    split at h
    · cases h
    next st2 hst2 =>
      cases h
      obtain ⟨htcp, hcode, hred, hdns, hip⟩ :=
        test_all_fields cfg st env st2 hst2
      have hstv : st.performance_output.dnsTime.isSome = true
          ∧ st.performance_output.ipOfDomain.isSome = true := by
        unfold TestPerformance.mk at hst
        split at hst
        · cases hst
        · cases hst
          simp
      exact ⟨hdns ▸ hstv.1, hip ▸ hstv.2, htcp, hcode, hred⟩

/-- Every entry of `dictSet k' v m` is an old entry of `m` or carries the
newly written value `v`. -/
theorem mem_dictSet (k' : String) (v : PerfOutput) :
    ∀ (m : List (String × PerfOutput)) (k : String) (rec : PerfOutput),
      (k, rec) ∈ dictSet k' v m → (k, rec) ∈ m ∨ rec = v
  | [], k, rec, h => by
    simp only [dictSet, List.mem_singleton, Prod.mk.injEq] at h
    exact Or.inr h.2
  | (k1, v1) :: rest, k, rec, h => by
    unfold dictSet at h
    by_cases hk : k1 = k'
    · rw [if_pos hk] at h
      rcases List.mem_cons.mp h with heq | hmem
      · exact Or.inr (Prod.ext_iff.mp heq).2
      · exact Or.inl (List.mem_cons_of_mem _ hmem)
    · rw [if_neg hk] at h
      rcases List.mem_cons.mp h with heq | hmem
      · exact Or.inl (heq ▸ List.mem_cons_self _ _)
      · rcases mem_dictSet k' v rest k rec hmem with h1 | h2
        · exact Or.inl (List.mem_cons_of_mem _ h1)
        · exact Or.inr h2

/-- Run invariant: if every record of the starting map is complete, every
record of the final map is complete (a new key is only ever written with a
probe output that returned normally). -/
theorem runOneWorker_complete (cfg : Config) (envOf : String → ProbeEnv) :
    ∀ (hosts : List String) (m : List (String × PerfOutput)),
      (∀ k rec, (k, rec) ∈ m → completeRecord rec) →
      ∀ k rec, (k, rec) ∈ (runOneWorker cfg envOf hosts m).1 →
        completeRecord rec
  | [], _, hm, k, rec, hmem => hm k rec hmem
  | h :: rest, m, hm, k, rec, hmem => by
    revert hmem
    unfold runOneWorker do_work
    cases hpo : probeOutput cfg h (envOf h) with
    | error e =>
      intro hmem
      exact hm k rec hmem
    | ok out =>
      intro hmem
      refine runOneWorker_complete cfg envOf rest (dictSet h out m)
        ?_ k rec hmem
      intro k' rec' hmem'
      rcases mem_dictSet h out m k' rec' hmem' with hold | hnew
      · exact hm k' rec' hold
      · exact hnew ▸ probeOutput_complete cfg h (envOf h) out hpo

/-- C10: confirmed. `do_work` writes `host_perfs[hostname]` only after
`TestPerformance(hostname)` and `test_all()` both returned without an
uncaught exception, so every record present in the final map is complete:
it contains the DNS time, resolved IP, average TCP time, HTTP status code
and redirect count; no partial record is ever stored. -/
theorem final_map_records_complete (cfg : Config) (envOf : String → ProbeEnv)
    (hosts : List String) (k : String) (rec : PerfOutput)
    (hmem : (k, rec) ∈ (runOneWorker cfg envOf hosts []).1) :
    completeRecord rec :=
  runOneWorker_complete cfg envOf hosts [] (by intro _ _ h; cases h)
    k rec hmem

/-- Closed instance of `final_map_records_complete` at a one-host run whose
probe succeeds end to end. -/
theorem final_map_records_complete_witness :
    completeRecord
      { dnsTime := some (1/20), ipOfDomain := some "93.184.216.34",
        avgTcpTime := some (3/100), httpResponseCode := some 200,
        numRedirects := some 0, avgContentLoadTime := some (1/4) } :=
  final_map_records_complete { user_agent := none, test_threads := 1 }
    (fun _ => goodEnv) ["a.example"] "a.example"
    { dnsTime := some (1/20), ipOfDomain := some "93.184.216.34",
      avgTcpTime := some (3/100), httpResponseCode := some 200,
      numRedirects := some 0, avgContentLoadTime := some (1/4) }
    (by simp [runOneWorker, do_work, probeOutput, TestPerformance.mk,
          TestPerformance.test_all, TestPerformance.get_http, goodEnv,
          mean, fanOutTimes, content_times, requests_head, followRedirects,
          plainServer, dictSet, ip_to_url, c_header, List.range_succ])
